import Mathlib

/-
Verification of the Happy Crash Detective summarizer (src/script.py).

The whole program is pure text processing, so the embedding works over
`List Char`.  The frame-extraction regular expression of
`HappyCrashDetective.parse_gdb_output` is embedded as a small regex AST
(`RE`) together with a backtracking matcher (`run`) that reproduces
Python's leftmost, greedy/lazy backtracking order; the matcher carries a
structural fuel argument so that it is computable by the kernel.  The
character classes model Python's classes restricted to the code points
below 256 (all inputs the program ever sees are produced by gdb and are
in that range); in particular the digit class is the ASCII digit class.
-/

set_option maxRecDepth 1000000

namespace HappyCrash

/-- The characters of a string literal, the form all text takes here. -/
def chars (s : String) : List Char := s.data

/-- Python's `needle in hay` substring test. -/
def isInfixOf : List Char → List Char → Bool
  | needle, [] => needle.isEmpty
  | needle, c :: rest => needle.isPrefixOf (c :: rest) || isInfixOf needle rest

/-- Python's `str.strip()` (leading and trailing whitespace removed). -/
def pySpace (c : Char) : Bool :=
  c == ' ' || c == '\t' || c == '\n' || c == '\r' || c == '\x0b' || c == '\x0c' ||
  c == '\x1c' || c == '\x1d' || c == '\x1e' || c == '\x1f' || c == '\x85' || c == '\xa0'

def pyStrip (s : List Char) : List Char :=
  ((s.dropWhile pySpace).reverse.dropWhile pySpace).reverse

/-- Python's `\d` class (ASCII part). -/
def pyDigit (c : Char) : Bool := c.isDigit

/-- The `[0-9a-fA-F]` class of the frame pattern. -/
def pyHexDigit (c : Char) : Bool :=
  c.isDigit || ('a' ≤ c && c ≤ 'f') || ('A' ≤ c && c ≤ 'F')

def notLParen (c : Char) : Bool := c != '('

def notRParen (c : Char) : Bool := c != ')'

/-- Python's `.` class: any character except a newline. -/
def notNl (c : Char) : Bool := c != '\n'

/-- Python's `int()` on a nonempty digit string. -/
def digitsToNat (ds : List Char) : Nat :=
  ds.foldl (fun a c => 10 * a + (c.toNat - 48)) 0

/-! ### A tiny regex engine

Only the constructs used by the frame pattern are present.  All starred
and plus-ed subexpressions of the source pattern are single-character
classes, so the AST needs stars over classes only. -/

inductive RE where
  | eps : RE
  | lit : Char → RE
  | cls : (Char → Bool) → RE
  | seq : RE → RE → RE
  | alt : RE → RE → RE
  | grp : Nat → RE → RE
  | starG : (Char → Bool) → RE
  | starL : (Char → Bool) → RE

/-- Greedy `+` over a class: one character, then a greedy star. -/
def RE.plusG (p : Char → Bool) : RE := RE.seq (RE.cls p) (RE.starG p)

/-- Lazy `+?` over a class: one character, then a lazy star. -/
def RE.plusL (p : Char → Bool) : RE := RE.seq (RE.cls p) (RE.starL p)

/-- Greedy `?`: prefer the subexpression over the empty match. -/
def RE.opt (r : RE) : RE := RE.alt r RE.eps

def RE.seqs : List RE → RE
  | [] => RE.eps
  | r :: rs => RE.seq r (RE.seqs rs)

/-- Defunctionalized continuation items of the matcher: a pending
subexpression, or the closing of capture group `n` opened when the
remaining input was `st`. -/
inductive KItem where
  | kre : RE → KItem
  | kclose : Nat → List Char → KItem

/-- Capture environment: group number paired with captured text,
most recent first. -/
abbrev Caps := List (Nat × List Char)

/-- Backtracking matcher.  `run fuel k s caps` matches the continuation
list `k` against the input suffix `s`, returning the captures and the
unconsumed rest of the first (in Python's exploration order) overall
success.  Greedy stars try the longest repetition first, lazy stars the
shortest; alternation tries the left branch first.  `fuel` bounds the
recursion depth, which is at most the pattern size plus the consumed
length, so callers pass `s.length` plus a constant. -/
def run : Nat → List KItem → List Char → Caps → Option (Caps × List Char)
  | 0, _, _, _ => none
  | _ + 1, [], s, caps => some (caps, s)
  | fuel + 1, KItem.kre RE.eps :: k, s, caps => run fuel k s caps
  | _ + 1, KItem.kre (RE.lit _) :: _, [], _ => none
  | fuel + 1, KItem.kre (RE.lit c) :: k, a :: s', caps =>
      if a = c then run fuel k s' caps else none
  | _ + 1, KItem.kre (RE.cls _) :: _, [], _ => none
  | fuel + 1, KItem.kre (RE.cls p) :: k, a :: s', caps =>
      if p a then run fuel k s' caps else none
  | fuel + 1, KItem.kre (RE.seq a b) :: k, s, caps =>
      run fuel (KItem.kre a :: KItem.kre b :: k) s caps
  | fuel + 1, KItem.kre (RE.alt a b) :: k, s, caps =>
      match run fuel (KItem.kre a :: k) s caps with
      | some r => some r
      | none => run fuel (KItem.kre b :: k) s caps
  | fuel + 1, KItem.kre (RE.grp n r) :: k, s, caps =>
      run fuel (KItem.kre r :: KItem.kclose n s :: k) s caps
  | fuel + 1, KItem.kre (RE.starG p) :: k, s, caps =>
      ((List.range ((s.takeWhile p).length + 1)).reverse).findSome?
        (fun j => run fuel k (s.drop j) caps)
  | fuel + 1, KItem.kre (RE.starL p) :: k, s, caps =>
      (List.range ((s.takeWhile p).length + 1)).findSome?
        (fun j => run fuel k (s.drop j) caps)
  | fuel + 1, KItem.kclose n st :: k, s, caps =>
      run fuel k s ((n, st.take (st.length - s.length)) :: caps)

/-- The frame pattern of `parse_gdb_output`, transcribed from
`r'#(\d+)\s+(0x[0-9a-fA-F]+)?\s+in\s+([^(]+)(\([^)]*\))?\s+\((?:[^)]*)\)\s+at\s+(.+?):(\d+)'`. -/
def framePat : RE := RE.seqs [
  RE.lit '#',
  RE.grp 1 (RE.plusG pyDigit),
  RE.plusG pySpace,
  RE.opt (RE.grp 2 (RE.seqs [RE.lit '0', RE.lit 'x', RE.plusG pyHexDigit])),
  RE.plusG pySpace,
  RE.lit 'i', RE.lit 'n',
  RE.plusG pySpace,
  RE.grp 3 (RE.plusG notLParen),
  RE.opt (RE.grp 4 (RE.seqs [RE.lit '(', RE.starG notRParen, RE.lit ')'])),
  RE.plusG pySpace,
  RE.lit '(', RE.starG notRParen, RE.lit ')',
  RE.plusG pySpace,
  RE.lit 'a', RE.lit 't',
  RE.plusG pySpace,
  RE.grp 5 (RE.plusL notNl),
  RE.lit ':',
  RE.grp 6 (RE.plusG pyDigit) ]

/-- One tuple of `re.findall`: the six capture groups, an unmatched
optional group giving the empty string, exactly as in Python. -/
structure RawFrame where
  num : List Char
  addr : List Char
  func : List Char
  params : List Char
  file : List Char
  lineStr : List Char
  deriving DecidableEq, Repr

def groupOf (caps : Caps) (n : Nat) : List Char := (List.lookup n caps).getD []

def mkFrame (caps : Caps) : RawFrame :=
  ⟨groupOf caps 1, groupOf caps 2, groupOf caps 3,
   groupOf caps 4, groupOf caps 5, groupOf caps 6⟩

/-- Scanning of `re.findall`: try a match at each position left to right,
continue after the consumed text of a successful match (advancing at
least one character). -/
def scanGo : Nat → List Char → List RawFrame
  | 0, _ => []
  | _ + 1, [] => []
  | fuel + 1, c :: tail =>
      match run ((c :: tail).length + 200) [KItem.kre framePat] (c :: tail) [] with
      | some (caps, rest) =>
          if rest.length < (c :: tail).length then mkFrame caps :: scanGo fuel rest
          else mkFrame caps :: scanGo fuel tail
      | none => scanGo fuel tail

/-- The frame list `re.findall(frame_pattern, output)`. -/
def framesOf (output : List Char) : List RawFrame :=
  scanGo (output.length + 1) output

/-! ### The summarizer (`HappyCrashDetective.parse_gdb_output`) -/

/-- The `FRIENDLY_SIGNALS` dictionary, in its insertion (= iteration)
order. -/
def FRIENDLY_SIGNALS : List (List Char × List Char) := [
  (chars "SIGSEGV", chars "🛑 Segmentation fault (tried to access memory that doesn\u0027t belong to you)"),
  (chars "SIGABRT", chars "💥 Abort signal (program decided to quit unexpectedly)"),
  (chars "SIGFPE", chars "➗ Math error (division by zero or floating point issue)"),
  (chars "SIGILL", chars "⚡ Illegal instruction (CPU didn\u0027t understand your code)"),
  (chars "SIGBUS", chars "🚌 Bus error (misaligned memory access)"),
  (chars "SIGTRAP", chars "🔍 Trace/breakpoint trap (debugger is watching)"),
  (chars "SIGSYS", chars "📞 Bad system call (wrong number to the system)")]

/-- The signal-detection loop: first dictionary entry whose key occurs
as a substring of the output. -/
def detectSignal (output : List Char) : Option (List Char) :=
  (FRIENDLY_SIGNALS.find? (fun p => isInfixOf p.1 output)).map (fun p => p.1)

/-- The lookup `FRIENDLY_SIGNALS.get(sig, 'Unknown error happened!')`. -/
def sigGetD (sig : List Char) : List Char :=
  (List.lookup sig FRIENDLY_SIGNALS).getD (chars "Unknown error happened!")

/-- One position of `re.search(r'exited with code (\d+)', output)`:
the literal, then a maximal nonempty digit run. -/
def exitHere (s : List Char) : Option (List Char) :=
  if (chars "exited with code ").isPrefixOf s then
    (if (s.drop 17).takeWhile pyDigit = [] then none
     else some ((s.drop 17).takeWhile pyDigit))
  else none

/-- The search `re.search(r'exited with code (\d+)', output)`: leftmost match,
returning the digit group. -/
def searchExitCode : List Char → Option (List Char)
  | [] => none
  | c :: rest =>
      match exitHere (c :: rest) with
      | some ds => some ds
      | none => searchExitCode rest

/-- The frame classification of lines 125-133 of the source, on the raw
regex groups (path tests on group 5, name tests on the unstripped
group 3). -/
def isLibraryRaw (f : RawFrame) : Bool :=
  (chars "/usr").isPrefixOf f.file || (chars "/lib").isPrefixOf f.file ||
  isInfixOf (chars "sysdeps") f.file || isInfixOf (chars "malloc") f.file ||
  isInfixOf (chars ".so") f.file ||
  isInfixOf (chars "libc") f.file || isInfixOf (chars "libstdc++") f.file ||
  isInfixOf (chars "libpthread") f.file ||
  isInfixOf (chars "ld-linux") f.file || isInfixOf (chars "csu") f.file ||
  isInfixOf (chars "vg_preload") f.file ||
  isInfixOf (chars "linux-gnu") f.file ||
  (chars "__GI_").isPrefixOf f.func ||
  (chars "__libc_").isPrefixOf f.func || (chars "std::").isPrefixOf f.func ||
  (chars "operator").isPrefixOf f.func

/-- A bucketed frame tuple `(frame_num, full_func, file, line)` where
`full_func = func.strip() + (params if params else '')`. -/
structure CFrame where
  num : List Char
  func : List Char
  file : List Char
  lineStr : List Char
  deriving DecidableEq, Repr

def toCFrame (f : RawFrame) : CFrame :=
  ⟨f.num, pyStrip f.func ++ f.params, f.file, f.lineStr⟩

/-- The `user_frames` bucket: frames appended in extraction order when not
classified as library. -/
def userFramesOf (output : List Char) : List CFrame :=
  ((framesOf output).filter (fun f => !(isLibraryRaw f))).map toCFrame

/-- The `library_frames` bucket: frames appended in extraction order when
classified as library. -/
def libFramesOf (output : List Char) : List CFrame :=
  ((framesOf output).filter isLibraryRaw).map toCFrame

/-! Rendering blocks, each a literal transcription of the f-strings of
lines 140-182 of the source. -/

def noOutputMsg : List Char := chars "🤔 Hmm, no output to analyze. That\u0027s strange!"

def successMsg : List Char := chars "🎉 Success! Program finished perfectly with code 0!"

def errExitMsg (code : Nat) : List Char :=
  chars "⚠️  Program exited with error code " ++ (Nat.repr code).data ++
  chars " (not a crash, but something went wrong)"

def noCrashMsg : List Char := chars "✅ No crash detected! Program finished normally."

def headerOf (sig : List Char) : List Char :=
  chars "\n🔍 " ++ sigGetD sig ++ chars "\n\n"

def problemOf (f : CFrame) : List Char :=
  chars "🎯 **The problem is likely here:**\n" ++
  chars "   📁 File: " ++ f.file ++ chars "\n" ++
  chars "   📄 Line: " ++ f.lineStr ++ chars "\n" ++
  chars "   🔧 Function: " ++ f.func ++ chars "\n\n"

def simplifiedHeader : List Char := chars "📋 **What happened (simplified):**\n"

/-- The function of `user_frames[i]`, the empty string out of range
(the source only ever uses indices that exist). -/
def funcAt (user : List CFrame) (i : Nat) : List Char :=
  match user.get? i with
  | some f => f.func
  | none => []

def startLine (user : List CFrame) : List Char :=
  chars "   1. " ++ funcAt user (user.length - 1) ++ chars " (started here)\n"

/-- The loop `for i in range(min(3, len(user_frames)-1))` printing
`user_frames[-(i+2)]`, i.e. index `len - (i+2)`. -/
def chainMiddle (user : List CFrame) : List Char :=
  ((List.range (min 3 (user.length - 1))).map (fun i =>
    chars "   " ++ (Nat.repr (i + 2)).data ++ chars ". " ++
    funcAt user (user.length - (i + 2)) ++ chars "\n")).flatten

def crashedLine (user : List CFrame) : List Char :=
  chars "   → " ++ funcAt user 0 ++ chars " (crashed here)\n"

def chainOf (user : List CFrame) : List Char :=
  startLine user ++ chainMiddle user ++ crashedLine user

def hintOf (l0 : CFrame) : List Char :=
  chars "\n💡 **Hint:** Your code called a system function that caused the crash.\n" ++
  chars "   The system was trying to: " ++ l0.func ++ chars "\n"

def libOnlyBlock : List Char :=
  chars "🤔 **The crash happened in a system library**\n" ++
  chars "💡 **This usually means:**\n" ++
  chars "   • You passed invalid data to a system function\n" ++
  chars "   • Memory was corrupted before the system call\n" ++
  chars "   • You\u0027re using a library function incorrectly\n\n"

/-- The filter of the library-only hint loop: no internal-symbol term
occurs anywhere in the (full) function name. -/
def cleanFunc (f : CFrame) : Bool :=
  !(isInfixOf (chars "std::") f.func) && !(isInfixOf (chars "__GI_") f.func) &&
  !(isInfixOf (chars "__libc_") f.func)

def lookLine (f : CFrame) : List Char :=
  chars "🔍 **Look at this code:** " ++ f.func ++ chars " at " ++ f.file ++
  chars ":" ++ f.lineStr ++ chars "\n"

/-- The library-only hint loop: first clean frame wins, the `break`
stops after one line; no clean frame, no line. -/
def lookPart (lib : List CFrame) : List Char :=
  match lib.find? cleanFunc with
  | some f => lookLine f
  | none => []

def noInfoBlock : List Char :=
  chars "🤷 **Couldn\u0027t find detailed crash information**\n" ++
  chars "💡 **Try this:** Compile with -g flag: g++ -g your_code.cpp\n"

def tipsBlock : List Char :=
  chars "\n✨ **Quick tips:**\n" ++
  chars "   • Check for null pointers\n" ++
  chars "   • Verify array bounds\n" ++
  chars "   • Ensure memory is properly allocated\n" ++
  chars "   • Validate function inputs\n" ++
  chars "   • Avoid double frees or invalid frees\n" ++
  chars "   • Use tools like Valgrind for memory issues\n" ++
  chars "   • Don\u0027t hesitate to ask for help! 🆘\n"

/-- The hint appended after the user-frame chain when library frames
exist: it names the first library frame's function. -/
def hintPart (lib : List CFrame) : List Char :=
  match lib with
  | l0 :: _ => hintOf l0
  | [] => []

/-- The frame-report body (lines 142-173): user branch, library-only
branch, or no-frames branch. -/
def bodyOf (user lib : List CFrame) : List Char :=
  match user with
  | u0 :: _ =>
      problemOf u0 ++ simplifiedHeader ++
      (if 1 < user.length then chainOf user else []) ++
      hintPart lib
  | [] =>
      match lib with
      | _ :: _ => libOnlyBlock ++ lookPart lib
      | [] => noInfoBlock

def renderCrash (sig : List Char) (user lib : List CFrame) : List Char :=
  headerOf sig ++ bodyOf user lib ++ tipsBlock

/-- The summarizer `HappyCrashDetective.parse_gdb_output`, in full. -/
def parse_gdb_output (output : List Char) : List Char :=
  if output = [] then noOutputMsg
  else
    match detectSignal output with
    | none =>
        if isInfixOf (chars "exited with code") output then
          match searchExitCode output with
          | some ds =>
              if digitsToNat ds = 0 then successMsg
              else errExitMsg (digitsToNat ds)
          | none => noCrashMsg
        else noCrashMsg
    | some sig => renderCrash sig (userFramesOf output) (libFramesOf output)

/-! ### The debugger invoker (`run_gdb`, launch mode)

The subprocess call of `run_gdb` can complete, raise
`subprocess.TimeoutExpired`, raise `FileNotFoundError` (gdb absent), or
raise some other exception; the `try/except` of lines 47-61 turns every
outcome into a returned string.  The four outcomes are embedded as an
inductive, and the function as a total map from outcomes to text. -/

inductive LaunchOutcome where
  | completed : List Char → List Char → LaunchOutcome
  | timedOut : LaunchOutcome
  | gdbMissing : LaunchOutcome
  | failed : List Char → LaunchOutcome

def timeoutMsg : List Char := chars "⏰ Time\u0027s up! Program took too long and was stopped."

def notInstalledMsg : List Char :=
  chars "❌ Oops! GDB is not installed. Please install it with: sudo apt install gdb"

def run_gdb (oc : LaunchOutcome) : List Char :=
  match oc with
  | LaunchOutcome.completed out err => out ++ err
  | LaunchOutcome.timedOut => timeoutMsg
  | LaunchOutcome.gdbMissing => notInstalledMsg
  | LaunchOutcome.failed msg => chars "❌ Whoops! Failed to run GDB: " ++ msg

/-! ### Spec-side classification predicates (for the refinement claim C1)

`specLibraryClaim` follows the claim's words: a frame is library when the
path starts under a system-library root, or contains a runtime-internal
fragment, or *ends with* the shared-library extension, or the function
name begins with an internal-symbol prefix.  `specLibraryAmended` is the
same predicate with "ends with" replaced by "contains", which is what
the code tests. -/

def runtimeFragments : List (List Char) :=
  [chars "sysdeps", chars "malloc", chars "libc", chars "libstdc++",
   chars "libpthread", chars "ld-linux", chars "csu", chars "vg_preload",
   chars "linux-gnu"]

def symbolPrefixes : List (List Char) :=
  [chars "__GI_", chars "__libc_", chars "std::", chars "operator"]

def specLibraryClaim (f : RawFrame) : Prop :=
  (chars "/usr") <+: f.file ∨ (chars "/lib") <+: f.file ∨
  (∃ frag ∈ runtimeFragments, frag <:+: f.file) ∨
  (chars ".so") <:+ f.file ∨
  (∃ pre ∈ symbolPrefixes, pre <+: f.func)

def specLibraryAmended (f : RawFrame) : Prop :=
  (chars "/usr") <+: f.file ∨ (chars "/lib") <+: f.file ∨
  (∃ frag ∈ runtimeFragments, frag <:+: f.file) ∨
  (chars ".so") <:+: f.file ∨
  (∃ pre ∈ symbolPrefixes, pre <+: f.func)

instance : DecidablePred specLibraryClaim := fun f => by
  unfold specLibraryClaim
  infer_instance

instance : DecidablePred specLibraryAmended := fun f => by
  unfold specLibraryAmended
  infer_instance

/-! ### Declarative semantics of the regex engine (for frame-shape facts)

`RMatch r w` says the expression `r` can match exactly the word `w`;
`KM k s rest` says the continuation list `k` can consume `s` down to
`rest`.  The matcher is proved sound for these below, which pins down
the shape of any text a successful frame match consumed. -/

inductive RMatch : RE → List Char → Prop where
  | eps : RMatch RE.eps []
  | lit (c : Char) : RMatch (RE.lit c) [c]
  | cls {p : Char → Bool} {c : Char} : p c = true → RMatch (RE.cls p) [c]
  | seq {a b : RE} {w1 w2 : List Char} :
      RMatch a w1 → RMatch b w2 → RMatch (RE.seq a b) (w1 ++ w2)
  | altL {a b : RE} {w : List Char} : RMatch a w → RMatch (RE.alt a b) w
  | altR {a b : RE} {w : List Char} : RMatch b w → RMatch (RE.alt a b) w
  | grp {n : Nat} {r : RE} {w : List Char} : RMatch r w → RMatch (RE.grp n r) w
  | starG {p : Char → Bool} {w : List Char} :
      (∀ c ∈ w, p c = true) → RMatch (RE.starG p) w
  | starL {p : Char → Bool} {w : List Char} :
      (∀ c ∈ w, p c = true) → RMatch (RE.starL p) w

inductive KM : List KItem → List Char → List Char → Prop where
  | nil {s : List Char} : KM [] s s
  | re {r : RE} {k : List KItem} {w s rest : List Char} :
      RMatch r w → KM k s rest → KM (KItem.kre r :: k) (w ++ s) rest
  | close {n : Nat} {st : List Char} {k : List KItem} {s rest : List Char} :
      KM k s rest → KM (KItem.kclose n st :: k) s rest

/-! ### Concrete inputs used by individual claims -/

/-- A frame whose file path contains `.so` without ending in it. -/
def c1bad : List Char := chars "SIGSEGV\n#0  0x1 in f (x=1) at a.so.c:1\n"

def c1frame : RawFrame :=
  ⟨chars "0", chars "0x1", chars "f", [], chars "a.so.c", chars "1"⟩

/-- A crash text with exactly one user frame. -/
def c2bad : List Char := chars "SIGSEGV\n#0  0x1 in f (x=1) at /home/a.c:1\n"

/-- A crash text with two user frames and one library frame. -/
def c2wit : List Char :=
  chars "SIGSEGV\n#0  0x1 in f (x=1) at /home/a.c:1\n#1  0x2 in main (y=2) at /home/a.c:9\n#2  0x3 in libgo (z=0) at /usr/x.c:7\n"

/-- The end-to-end example input of the specification. -/
def c3input : List Char :=
  chars "Program received signal SIGSEGV...\n#0  0x0000000000401146 in crash_func () at /home/user/app.c:10\n#1  0x0000000000401160 in main () at /home/user/app.c:15\n"

/-- Library-only crash text whose first library frame contains `std::`
inside the name without starting with it. -/
def c6bad : List Char :=
  chars "SIGSEGV\n#0  0x1 in call_std::helper (x=1) at /usr/lib/a.c:1\n#1  0x2 in dolib (y=2) at /usr/lib/b.c:2\n"

/-- Library-only crash text for the amended library-only report. -/
def c6wit : List Char :=
  chars "SIGBUS\n#0  0x1 in __GI_raise (x=1) at /usr/a.c:4\n#1  0x2 in blowup (y=2) at /usr/b.c:5\n"

/-- A crash text with one well-formed frame, for the frame-shape
witness. -/
def c7wit : List Char := chars "SIGFPE\n#0  0x1 in divit (a=0) at /home/m.c:3\n"

def c7frame : RawFrame :=
  ⟨chars "0", chars "0x1", chars "divit", [], chars "/home/m.c", chars "3"⟩

/-! ### Helper lemmas -/

theorem isInfixOf_iff {needle hay : List Char} :
    isInfixOf needle hay = true ↔ needle <:+: hay := by
  induction hay with
  | nil => simp [isInfixOf, List.isEmpty_iff, List.infix_nil]
  | cons c rest ih =>
      simp [isInfixOf, Bool.or_eq_true, ih, List.isPrefixOf_iff_prefix,
        List.infix_cons_iff]

theorem find?_split {α : Type} (p : α → Bool) (l : List α) (a : α) :
    l.find? p = some a ↔
      p a = true ∧ ∃ l₁ l₂, l = l₁ ++ a :: l₂ ∧ ∀ b ∈ l₁, p b = false := by
  induction l with
  | nil => simp
  | cons x xs ih =>
      by_cases hx : p x = true
      · rw [List.find?_cons_of_pos _ hx]
        constructor
        · rintro h
          cases h
          exact ⟨hx, [], xs, rfl, by simp⟩
        · rintro ⟨hpa, l₁, l₂, heq, hall⟩
          cases l₁ with
          | nil => simp at heq; rw [heq.1]
          | cons y l₁ =>
              simp only [List.cons_append, List.cons.injEq] at heq
              have hy := hall y (by simp)
              rw [heq.1] at hx
              rw [hy] at hx
              cases hx
      · rw [List.find?_cons_of_neg _ hx]
        rw [ih]
        constructor
        · rintro ⟨hpa, l₁, l₂, heq, hall⟩
          refine ⟨hpa, x :: l₁, l₂, by rw [heq]; rfl, ?_⟩
          intro b hb
          rcases List.mem_cons.mp hb with hb | hb
          · rw [hb]; exact Bool.not_eq_true _ ▸ (by simpa using hx)
          · exact hall b hb
        · rintro ⟨hpa, l₁, l₂, heq, hall⟩
          cases l₁ with
          | nil =>
              simp only [List.nil_append, List.cons.injEq] at heq
              rw [heq.1] at hx
              rw [hpa] at hx
              cases hx rfl
          | cons y l₁ =>
              simp only [List.cons_append, List.cons.injEq] at heq
              exact ⟨hpa, l₁, l₂, heq.2, fun b hb => hall b (List.mem_cons_of_mem _ hb)⟩

theorem searchExitCode_marker_present {out ds : List Char}
    (h : searchExitCode out = some ds) : (chars "exited with code") <:+: out := by
  induction out with
  | nil => simp [searchExitCode] at h
  | cons c rest ih =>
      rw [searchExitCode] at h
      cases hx : exitHere (c :: rest) with
      | some ds' =>
          unfold exitHere at hx
          cases hp : (chars "exited with code ").isPrefixOf (c :: rest) with
          | false => rw [hp] at hx; simp at hx
          | true =>
              have hpre : (chars "exited with code ") <+: c :: rest :=
                List.isPrefixOf_iff_prefix.mp hp
              have hsub : (chars "exited with code") <+: (chars "exited with code ") := by
                decide
              exact (hsub.trans hpre).isInfix
      | none => rw [hx] at h; exact List.infix_cons (ih h)

theorem searchExitCode_none_of (out : List Char)
    (h : ∀ t ∈ out.tails, (chars "exited with code ").isPrefixOf t = true →
         (t.drop 17).takeWhile pyDigit = []) :
    searchExitCode out = none := by
  induction out with
  | nil => rfl
  | cons c rest ih =>
      rw [searchExitCode]
      have h0 := h (c :: rest) ((List.mem_tails _ _).mpr (List.suffix_refl _))
      have hx : exitHere (c :: rest) = none := by
        unfold exitHere
        cases hp : (chars "exited with code ").isPrefixOf (c :: rest) with
        | false => simp
        | true =>
            have hds := h0 hp
            rw [if_pos rfl, hds, if_pos rfl]
      rw [hx]
      refine ih (fun t ht hpre => h t ?_ hpre)
      exact (List.mem_tails _ _).mpr
        (((List.mem_tails _ _).mp ht).trans (List.suffix_cons c rest))

/-! ### The claims -/

/-- C1 (counterexample): on the extracted frame of `c1bad` the code
classifies library (its path contains `.so` inside `a.so.c`), while the
claim's condition — which requires the path to *end* with the
shared-library extension — classifies user.  The claim's "exactly when"
is therefore false. -/
theorem C1_counterexample :
    c1frame ∈ framesOf c1bad ∧ isLibraryRaw c1frame = true ∧
      ¬ specLibraryClaim c1frame := by
  refine ⟨by decide, by decide, by decide⟩

/-- C1 (amended): a frame is classified library exactly when its path
starts under `/usr` or `/lib`, or its path *contains* one of the nine
runtime-internal fragments or the shared-library extension `.so`, or
its function name begins with one of the four internal-symbol
prefixes; otherwise user. -/
theorem C1_library_classification (f : RawFrame) :
    isLibraryRaw f = true ↔ specLibraryAmended f := by
  unfold isLibraryRaw specLibraryAmended runtimeFragments symbolPrefixes
  simp only [Bool.or_eq_true, isInfixOf_iff, List.isPrefixOf_iff_prefix,
    List.mem_cons, List.not_mem_nil, exists_eq_or_imp, exists_eq_left,
    List.mem_singleton, false_or, or_false]
  tauto

/-- C4: the summarizer detects at most one signal, namely the first
entry of the `FRIENDLY_SIGNALS` vocabulary, in its enumeration order,
whose name occurs as a literal substring of the input (no word
boundaries: an occurrence inside an unrelated word counts). -/
theorem C4_signal_detection (out s : List Char) :
    detectSignal out = some s ↔
      ∃ d l₁ l₂, FRIENDLY_SIGNALS = l₁ ++ ((s, d) :: l₂) ∧ s <:+: out ∧
        ∀ q ∈ l₁, ¬ (q.1 <:+: out) := by
  unfold detectSignal
  rw [Option.map_eq_some']
  constructor
  · rintro ⟨⟨s', d⟩, hfind, rfl⟩
    obtain ⟨hp, l₁, l₂, heq, hall⟩ := (find?_split _ _ _).mp hfind
    refine ⟨d, l₁, l₂, heq, isInfixOf_iff.mp hp, fun q hq hcon => ?_⟩
    have := hall q hq
    rw [isInfixOf_iff.mpr hcon] at this
    cases this
  · rintro ⟨d, l₁, l₂, heq, hinf, hnone⟩
    refine ⟨(s, d), (find?_split _ _ _).mpr
      ⟨isInfixOf_iff.mpr hinf, l₁, l₂, heq, fun b hb => ?_⟩, rfl⟩
    have : ¬ (b.1 <:+: out) := hnone b hb
    cases hbi : isInfixOf b.1 out with
    | false => rfl
    | true => exact absurd (isInfixOf_iff.mp hbi) this

/-- C5 (counterexample): the input `exited with code 01` contains the
substring `exited with code 0`, yet the summarizer reports error exit
code 1, not success. -/
theorem C5_counterexample :
    isInfixOf (chars "exited with code 0") (chars "exited with code 01") = true ∧
    parse_gdb_output (chars "exited with code 01") ≠ successMsg ∧
    parse_gdb_output (chars "exited with code 01") = errExitMsg 1 := by
  refine ⟨by decide, by decide, by decide⟩

/-- C5 (amended): for every input in which no signal name occurs and
the first occurrence of `exited with code ` followed by a digit run
parses to the numeric value 0, the summarizer reports success. -/
theorem C5_success_report (out ds : List Char)
    (h1 : detectSignal out = none) (h2 : searchExitCode out = some ds)
    (h3 : digitsToNat ds = 0) :
    parse_gdb_output out = successMsg := by
  have hne : out ≠ [] := by rintro rfl; simp [searchExitCode] at h2
  have hinf : isInfixOf (chars "exited with code") out = true :=
    isInfixOf_iff.mpr (searchExitCode_marker_present h2)
  simp [parse_gdb_output, hne, h1, hinf, h2, h3]

theorem C5_success_report_witness :
    searchExitCode (chars "blah exited with code 000 blah") = some (chars "000") ∧
    parse_gdb_output (chars "blah exited with code 000 blah") = successMsg :=
  ⟨rfl, C5_success_report (chars "blah exited with code 000 blah") (chars "000")
    rfl rfl rfl⟩

/-- C8: every launch-mode outcome of the debugger invoker is returned
as text: the timeout as the timed-out sentinel, a missing gdb binary as
the not-installed sentinel, and any other failure as a sentinel
embedding the failure description. -/
theorem C8_launch_failures_become_text (oc : LaunchOutcome) :
    (oc = LaunchOutcome.timedOut → run_gdb oc = timeoutMsg) ∧
    (oc = LaunchOutcome.gdbMissing → run_gdb oc = notInstalledMsg) ∧
    (∀ msg, oc = LaunchOutcome.failed msg → msg <:+: run_gdb oc) := by
  refine ⟨fun h => by rw [h]; rfl, fun h => by rw [h]; rfl, fun msg h => ?_⟩
  rw [h]
  exact ⟨chars "❌ Whoops! Failed to run GDB: ", [], by simp [run_gdb]⟩

theorem C8_launch_failures_become_text_witness :
    run_gdb LaunchOutcome.timedOut = timeoutMsg ∧
    run_gdb LaunchOutcome.gdbMissing = notInstalledMsg ∧
    (chars "boom") <:+: run_gdb (LaunchOutcome.failed (chars "boom")) :=
  ⟨(C8_launch_failures_become_text LaunchOutcome.timedOut).1 rfl,
   (C8_launch_failures_become_text LaunchOutcome.gdbMissing).2.1 rfl,
   (C8_launch_failures_become_text (LaunchOutcome.failed (chars "boom"))).2.2
     (chars "boom") rfl⟩

/-- C9: a detected signal is always a key of `FRIENDLY_SIGNALS`, so the
`Unknown error happened!` fallback of the header lookup is unreachable
and the header carries the canonical friendly explanation. -/
theorem C9_detected_signal_has_description (out sig : List Char)
    (h : detectSignal out = some sig) :
    ∃ d, List.lookup sig FRIENDLY_SIGNALS = some d ∧ sigGetD sig = d ∧
      sigGetD sig ≠ chars "Unknown error happened!" := by
  unfold detectSignal at h
  rw [Option.map_eq_some'] at h
  obtain ⟨pr, hfind, hfst⟩ := h
  have hmem := List.mem_of_find?_eq_some hfind
  subst hfst
  fin_cases hmem
  all_goals exact ⟨_, rfl, rfl, by decide⟩

theorem C9_detected_signal_has_description_witness :
    ∃ d, List.lookup (chars "SIGSYS") FRIENDLY_SIGNALS = some d ∧
      sigGetD (chars "SIGSYS") = d ∧
      sigGetD (chars "SIGSYS") ≠ chars "Unknown error happened!" :=
  C9_detected_signal_has_description (chars "see SIGSYS here") (chars "SIGSYS") rfl

/-- C10: with no signal present, a text containing `exited with code`
in which `exited with code ` is nowhere immediately followed by a digit
(for example a negative code) yields the no-crash message, not an
exit-code report. -/
theorem C10_no_digit_after_exit_marker (out : List Char)
    (h1 : detectSignal out = none)
    (h2 : isInfixOf (chars "exited with code") out = true)
    (h3 : ∀ t ∈ out.tails, (chars "exited with code ").isPrefixOf t = true →
          (t.drop 17).takeWhile pyDigit = []) :
    parse_gdb_output out = noCrashMsg := by
  have hs := searchExitCode_none_of out h3
  have hne : out ≠ [] := by
    rintro rfl
    exact absurd h2 (by decide)
  simp [parse_gdb_output, hne, h1, h2, hs]

theorem C10_no_digit_after_exit_marker_witness :
    parse_gdb_output (chars "exited with code -1") = noCrashMsg :=
  C10_no_digit_after_exit_marker (chars "exited with code -1") rfl rfl (by decide)

/-- C2 (counterexample): on `c2bad` a signal is detected and exactly
one user frame is extracted, yet no call chain is rendered at all — in
particular the innermost frame is never labeled `crashed here`, against
the claim's unconditional chain. -/
theorem C2_counterexample :
    detectSignal c2bad = some (chars "SIGSEGV") ∧
    (userFramesOf c2bad).length = 1 ∧
    isInfixOf (chars "(crashed here)") (parse_gdb_output c2bad) = false := by
  refine ⟨rfl, by decide, by decide⟩

/-- C2 (amended): when a signal is detected and at least *two* user
frames are extracted, the problem section reports the innermost user
frame's file, line and function, the full simplified chain (outermost
labeled as the start, the walk inward, the innermost labeled
`crashed here`) is rendered, and if library frames exist the hint names
the first library frame's function.  With exactly one user frame the
source renders the problem section and the chain header but no chain. -/
theorem C2_user_frame_report (out sig : List Char) (u0 u1 : CFrame)
    (rest : List CFrame)
    (hne : out ≠ []) (hsig : detectSignal out = some sig)
    (huser : userFramesOf out = u0 :: u1 :: rest) :
    (problemOf u0) <:+: parse_gdb_output out ∧
    (chainOf (u0 :: u1 :: rest)) <:+: parse_gdb_output out ∧
    (∀ l0 lrest, libFramesOf out = l0 :: lrest →
      (hintOf l0) <:+: parse_gdb_output out) := by
  have hlen : 1 < (u0 :: u1 :: rest).length := by simp
  have hEq : parse_gdb_output out =
      headerOf sig ++ (problemOf u0 ++ (simplifiedHeader ++
        (chainOf (u0 :: u1 :: rest) ++
          (hintPart (libFramesOf out) ++ tipsBlock)))) := by
    simp only [parse_gdb_output, if_neg hne, hsig, renderCrash, huser, bodyOf,
      if_pos hlen, List.append_assoc]
  refine ⟨⟨headerOf sig, simplifiedHeader ++ (chainOf (u0 :: u1 :: rest) ++
      (hintPart (libFramesOf out) ++ tipsBlock)), ?_⟩,
    ⟨headerOf sig ++ (problemOf u0 ++ simplifiedHeader),
      hintPart (libFramesOf out) ++ tipsBlock, ?_⟩, ?_⟩
  · rw [hEq]; simp only [List.append_assoc]
  · rw [hEq]; simp only [List.append_assoc]
  · intro l0 lrest hlib
    refine ⟨headerOf sig ++ (problemOf u0 ++ (simplifiedHeader ++
      chainOf (u0 :: u1 :: rest))), tipsBlock, ?_⟩
    rw [hEq, hlib]
    simp only [hintPart, List.append_assoc]

theorem C2_user_frame_report_witness :
    (problemOf ⟨chars "0", chars "f", chars "/home/a.c", chars "1"⟩) <:+:
      parse_gdb_output c2wit ∧
    (chainOf [⟨chars "0", chars "f", chars "/home/a.c", chars "1"⟩,
      ⟨chars "1", chars "main", chars "/home/a.c", chars "9"⟩]) <:+:
      parse_gdb_output c2wit ∧
    (hintOf ⟨chars "2", chars "libgo", chars "/usr/x.c", chars "7"⟩) <:+:
      parse_gdb_output c2wit := by
  have h := C2_user_frame_report c2wit (chars "SIGSEGV")
    ⟨chars "0", chars "f", chars "/home/a.c", chars "1"⟩
    ⟨chars "1", chars "main", chars "/home/a.c", chars "9"⟩ []
    (by decide) rfl (by decide)
  exact ⟨h.1, h.2.1, h.2.2 ⟨chars "2", chars "libgo", chars "/usr/x.c", chars "7"⟩
    [] (by decide)⟩

/-- C3 (counterexample): on the specification's end-to-end input the
problem section names the function `crash_func`, not `crash_func ()`:
the optional parameter-list group of the frame pattern stays unmatched
on this input (the single parenthesized group is consumed by the
mandatory argument-values group), so nothing is appended to the
stripped function name. -/
theorem C3_counterexample :
    isInfixOf (chars "🔧 Function: crash_func\n") (parse_gdb_output c3input) = true ∧
    isInfixOf (chars "Function: crash_func (") (parse_gdb_output c3input) = false := by
  refine ⟨by decide, by decide⟩

/-- C3 (amended): on the end-to-end input the header identifies the
segmentation fault and the problem section names the file
`/home/user/app.c`, the line `10`, and the function `crash_func`. -/
theorem C3_end_to_end :
    detectSignal c3input = some (chars "SIGSEGV") ∧
    (chars "\n🔍 🛑 Segmentation fault (tried to access memory that doesn\u0027t belong to you)\n\n").isPrefixOf
      (parse_gdb_output c3input) = true ∧
    isInfixOf
      (chars "   📁 File: /home/user/app.c\n   📄 Line: 10\n   🔧 Function: crash_func\n")
      (parse_gdb_output c3input) = true := by
  refine ⟨rfl, by decide, by decide⟩

/-- C6 (counterexample): on `c6bad` only library frames exist; the
first of them, `call_std::helper`, does not *start* with any
internal-symbol prefix, so the claim requires the hint to name it — but
the code filters by *containment* and names `dolib` instead. -/
theorem C6_counterexample :
    userFramesOf c6bad = [] ∧
    (libFramesOf c6bad).map CFrame.func =
      [chars "call_std::helper", chars "dolib"] ∧
    (¬ ((chars "std::") <+: chars "call_std::helper" ∨
        (chars "__GI_") <+: chars "call_std::helper" ∨
        (chars "__libc_") <+: chars "call_std::helper")) ∧
    isInfixOf (chars "**Look at this code:** call_std::helper")
      (parse_gdb_output c6bad) = false ∧
    isInfixOf (chars "**Look at this code:** dolib at /usr/lib/b.c:2")
      (parse_gdb_output c6bad) = true := by
  refine ⟨by decide, by decide, by decide, by decide, by decide⟩

/-- C6 (amended): with a signal, no user frames and at least one
library frame, the report is exactly the header, the generic
system-library explanation, and at most one hint line naming the first
library frame whose function name does not *contain* any of `std::`,
`__GI_`, `__libc_` (no such frame, no hint), followed by the tips. -/
theorem C6_library_only_report (out sig : List Char) (l0 : CFrame)
    (lrest : List CFrame)
    (hne : out ≠ []) (hsig : detectSignal out = some sig)
    (huser : userFramesOf out = [])
    (hlib : libFramesOf out = l0 :: lrest) :
    parse_gdb_output out =
      headerOf sig ++ (libOnlyBlock ++ (lookPart (l0 :: lrest) ++ tipsBlock)) := by
  simp only [parse_gdb_output, if_neg hne, hsig, renderCrash, huser, hlib, bodyOf,
    List.append_assoc]

theorem C6_library_only_report_witness :
    parse_gdb_output c6wit =
      headerOf (chars "SIGBUS") ++ (libOnlyBlock ++
        (lookLine ⟨chars "1", chars "blowup", chars "/usr/b.c", chars "5"⟩ ++
          tipsBlock)) := by
  have h := C6_library_only_report c6wit (chars "SIGBUS")
    ⟨chars "0", chars "__GI_raise", chars "/usr/a.c", chars "4"⟩
    [⟨chars "1", chars "blowup", chars "/usr/b.c", chars "5"⟩]
    (by decide) rfl (by decide) (by decide)
  rw [h]
  rfl

/-! ### Soundness of the matcher (for the frame-shape claim C7) -/

theorem RMatch_seq_inv {a b : RE} {w : List Char} (h : RMatch (RE.seq a b) w) :
    ∃ w1 w2, w = w1 ++ w2 ∧ RMatch a w1 ∧ RMatch b w2 := by
  cases h with
  | seq h1 h2 => exact ⟨_, _, rfl, h1, h2⟩

theorem RMatch_lit_inv {c : Char} {w : List Char} (h : RMatch (RE.lit c) w) :
    w = [c] := by
  cases h
  rfl

theorem RMatch_eps_inv {w : List Char} (h : RMatch RE.eps w) : w = [] := by
  cases h
  rfl

theorem RMatch_grp_inv {n : Nat} {r : RE} {w : List Char}
    (h : RMatch (RE.grp n r) w) : RMatch r w := by
  cases h with
  | grp h1 => exact h1

theorem RMatch_plusG_inv {p : Char → Bool} {w : List Char}
    (h : RMatch (RE.plusG p) w) : w ≠ [] ∧ ∀ c ∈ w, p c = true := by
  obtain ⟨w1, w2, rfl, h1, h2⟩ := RMatch_seq_inv h
  cases h1 with
  | cls hc =>
      cases h2 with
      | starG hall =>
          refine ⟨by simp, fun x hx => ?_⟩
          rcases List.mem_append.mp hx with hx | hx
          · rw [List.mem_singleton.mp hx]; exact hc
          · exact hall x hx

theorem RMatch_plusL_inv {p : Char → Bool} {w : List Char}
    (h : RMatch (RE.plusL p) w) : w ≠ [] ∧ ∀ c ∈ w, p c = true := by
  obtain ⟨w1, w2, rfl, h1, h2⟩ := RMatch_seq_inv h
  cases h1 with
  | cls hc =>
      cases h2 with
      | starL hall =>
          refine ⟨by simp, fun x hx => ?_⟩
          rcases List.mem_append.mp hx with hx | hx
          · rw [List.mem_singleton.mp hx]; exact hc
          · exact hall x hx

theorem takeWhile_take_all {p : Char → Bool} {s : List Char} {j : Nat}
    (hj : j ≤ (s.takeWhile p).length) : ∀ c ∈ s.take j, p c = true := by
  intro c hc
  have hs : s.takeWhile p ++ s.dropWhile p = s := List.takeWhile_append_dropWhile p s
  have hsplit : s.take j = (s.takeWhile p).take j := by
    nth_rewrite 1 [← hs]
    exact List.take_append_of_le_length hj
  rw [hsplit] at hc
  exact List.mem_takeWhile_imp (List.take_subset _ _ hc)

/-- Soundness of the backtracking matcher: a successful run means the
continuation list declaratively matched the consumed prefix. -/
theorem run_sound (fuel : Nat) :
    ∀ (k : List KItem) (s : List Char) (caps caps' : Caps) (rest : List Char),
      run fuel k s caps = some (caps', rest) → KM k s rest := by
  induction fuel with
  | zero => intro k s caps caps' rest h; simp [run] at h
  | succ fuel ih =>
      intro k s caps caps' rest h
      cases k with
      | nil =>
          simp only [run, Option.some.injEq, Prod.mk.injEq] at h
          rw [← h.2]
          exact KM.nil
      | cons it k =>
          cases it with
          | kclose n st =>
              simp only [run] at h
              exact KM.close (ih _ _ _ _ _ h)
          | kre r =>
              cases r with
              | eps =>
                  simp only [run] at h
                  exact KM.re RMatch.eps (ih _ _ _ _ _ h)
              | lit c =>
                  cases s with
                  | nil => simp [run] at h
                  | cons a s' =>
                      simp only [run] at h
                      by_cases hac : a = c
                      · rw [if_pos hac] at h
                        subst hac
                        exact KM.re (RMatch.lit a) (ih _ _ _ _ _ h)
                      · rw [if_neg hac] at h
                        exact absurd h (by simp)
              | cls p =>
                  cases s with
                  | nil => simp [run] at h
                  | cons a s' =>
                      simp only [run] at h
                      cases hpa : p a with
                      | false => rw [hpa] at h; simp at h
                      | true =>
                          rw [hpa, if_pos rfl] at h
                          exact KM.re (RMatch.cls hpa) (ih _ _ _ _ _ h)
              | seq a b =>
                  simp only [run] at h
                  have hkm := ih _ _ _ _ _ h
                  cases hkm with
                  | re h1 h2 =>
                      cases h2 with
                      | re h3 h4 =>
                          rw [← List.append_assoc]
                          exact KM.re (RMatch.seq h1 h3) h4
              | alt a b =>
                  simp only [run] at h
                  cases hA : run fuel (KItem.kre a :: k) s caps with
                  | some pr =>
                      simp only [hA, Option.some.injEq] at h
                      subst h
                      have hkm := ih _ _ _ _ _ hA
                      cases hkm with
                      | re hm hk => exact KM.re (RMatch.altL hm) hk
                  | none =>
                      simp only [hA] at h
                      have hkm := ih _ _ _ _ _ h
                      cases hkm with
                      | re hm hk => exact KM.re (RMatch.altR hm) hk
              | grp n r =>
                  simp only [run] at h
                  have hkm := ih _ _ _ _ _ h
                  cases hkm with
                  | re hm hk =>
                      cases hk with
                      | close hk2 => exact KM.re (RMatch.grp hm) hk2
              | starG p =>
                  simp only [run] at h
                  obtain ⟨j, hjmem, hj⟩ := List.exists_of_findSome?_eq_some h
                  have hkm := ih _ _ _ _ _ hj
                  have hjle : j ≤ (s.takeWhile p).length := by
                    have := List.mem_range.mp (List.mem_reverse.mp hjmem)
                    omega
                  have hre := KM.re (RMatch.starG (takeWhile_take_all hjle)) hkm
                  rwa [List.take_append_drop] at hre
              | starL p =>
                  simp only [run] at h
                  obtain ⟨j, hjmem, hj⟩ := List.exists_of_findSome?_eq_some h
                  have hkm := ih _ _ _ _ _ hj
                  have hjle : j ≤ (s.takeWhile p).length := by
                    have := List.mem_range.mp hjmem
                    omega
                  have hre := KM.re (RMatch.starL (takeWhile_take_all hjle)) hkm
                  rwa [List.take_append_drop] at hre

theorem KM_single_inv {r : RE} {s rest : List Char}
    (h : KM [KItem.kre r] s rest) : ∃ w, s = w ++ rest ∧ RMatch r w := by
  cases h with
  | re hm hk =>
      cases hk
      exact ⟨_, rfl, hm⟩

theorem run_consumes {fuel : Nat} {r : RE} {s : List Char} {caps caps' : Caps}
    {rest : List Char}
    (h : run fuel [KItem.kre r] s caps = some (caps', rest)) : rest <:+ s := by
  obtain ⟨w, hw, hm⟩ := KM_single_inv (run_sound fuel _ _ _ _ _ h)
  exact ⟨w, hw.symm⟩

/-- Every frame produced by the findall scan comes from a successful
match of the frame pattern on some suffix of the input. -/
theorem scanGo_mem (fuel : Nat) :
    ∀ (s : List Char) (f : RawFrame), f ∈ scanGo fuel s →
      ∃ s0 caps rest, s0 <:+ s ∧
        run (s0.length + 200) [KItem.kre framePat] s0 [] = some (caps, rest) ∧
        f = mkFrame caps := by
  induction fuel with
  | zero => intro s f h; simp [scanGo] at h
  | succ fuel ih =>
      intro s f h
      cases s with
      | nil => simp [scanGo] at h
      | cons c tail =>
          rw [scanGo] at h
          cases hr : run ((c :: tail).length + 200) [KItem.kre framePat]
              (c :: tail) [] with
          | some pr =>
              obtain ⟨caps, rest⟩ := pr
              simp only [hr] at h
              by_cases hlen : rest.length < (c :: tail).length
              · rw [if_pos hlen] at h
                rcases List.mem_cons.mp h with rfl | hmem
                · exact ⟨c :: tail, caps, rest, List.suffix_refl _, hr, rfl⟩
                · obtain ⟨s0, caps2, rest2, hsuf, hrun, hf⟩ := ih rest f hmem
                  exact ⟨s0, caps2, rest2, hsuf.trans (run_consumes hr), hrun, hf⟩
              · rw [if_neg hlen] at h
                rcases List.mem_cons.mp h with rfl | hmem
                · exact ⟨c :: tail, caps, rest, List.suffix_refl _, hr, rfl⟩
                · obtain ⟨s0, caps2, rest2, hsuf, hrun, hf⟩ := ih tail f hmem
                  exact ⟨s0, caps2, rest2,
                    hsuf.trans (List.suffix_cons c tail), hrun, hf⟩
          | none =>
              simp only [hr] at h
              obtain ⟨s0, caps2, rest2, hsuf, hrun, hf⟩ := ih tail f h
              exact ⟨s0, caps2, rest2,
                hsuf.trans (List.suffix_cons c tail), hrun, hf⟩

/-- Any word the frame pattern matches ends with the literal `at`,
nonempty whitespace, a nonempty newline-free file part, a colon and a
nonempty digit run. -/
theorem framePat_shape {w : List Char} (h : RMatch framePat w) :
    ∃ ws file digits, ws ≠ [] ∧ (∀ c ∈ ws, pySpace c = true) ∧
      file ≠ [] ∧ (∀ c ∈ file, notNl c = true) ∧
      digits ≠ [] ∧ (∀ c ∈ digits, pyDigit c = true) ∧
      ('a' :: 't' :: (ws ++ (file ++ ':' :: digits))) <:+ w := by
  simp only [framePat, RE.seqs] at h
  obtain ⟨w1, r1, rfl, hw1, h⟩ := RMatch_seq_inv h
  obtain ⟨w2, r2, rfl, hw2, h⟩ := RMatch_seq_inv h
  obtain ⟨w3, r3, rfl, hw3, h⟩ := RMatch_seq_inv h
  obtain ⟨w4, r4, rfl, hw4, h⟩ := RMatch_seq_inv h
  obtain ⟨w5, r5, rfl, hw5, h⟩ := RMatch_seq_inv h
  obtain ⟨w6, r6, rfl, hw6, h⟩ := RMatch_seq_inv h
  obtain ⟨w7, r7, rfl, hw7, h⟩ := RMatch_seq_inv h
  obtain ⟨w8, r8, rfl, hw8, h⟩ := RMatch_seq_inv h
  obtain ⟨w9, r9, rfl, hw9, h⟩ := RMatch_seq_inv h
  obtain ⟨w10, r10, rfl, hw10, h⟩ := RMatch_seq_inv h
  obtain ⟨w11, r11, rfl, hw11, h⟩ := RMatch_seq_inv h
  obtain ⟨w12, r12, rfl, hw12, h⟩ := RMatch_seq_inv h
  obtain ⟨w13, r13, rfl, hw13, h⟩ := RMatch_seq_inv h
  obtain ⟨w14, r14, rfl, hw14, h⟩ := RMatch_seq_inv h
  obtain ⟨w15, r15, rfl, hw15, h⟩ := RMatch_seq_inv h
  obtain ⟨w16, r16, rfl, hw16, h⟩ := RMatch_seq_inv h
  obtain ⟨w17, r17, rfl, hw17, h⟩ := RMatch_seq_inv h
  obtain ⟨w18, r18, rfl, hw18, h⟩ := RMatch_seq_inv h
  obtain ⟨w19, r19, rfl, hw19, h⟩ := RMatch_seq_inv h
  obtain ⟨w20, r20, rfl, hw20, h⟩ := RMatch_seq_inv h
  obtain ⟨w21, r21, rfl, hw21, h⟩ := RMatch_seq_inv h
  obtain rfl := RMatch_eps_inv h
  obtain rfl := RMatch_lit_inv hw16
  obtain rfl := RMatch_lit_inv hw17
  obtain rfl := RMatch_lit_inv hw20
  obtain ⟨hwsne, hwsall⟩ := RMatch_plusG_inv hw18
  obtain ⟨hfne, hfall⟩ := RMatch_plusL_inv (RMatch_grp_inv hw19)
  obtain ⟨hdne, hdall⟩ := RMatch_plusG_inv (RMatch_grp_inv hw21)
  refine ⟨w18, w19, w21, hwsne, hwsall, hfne, hfall, hdne, hdall,
    ⟨w1 ++ (w2 ++ (w3 ++ (w4 ++ (w5 ++ (w6 ++ (w7 ++ (w8 ++ (w9 ++ (w10 ++
      (w11 ++ (w12 ++ (w13 ++ (w14 ++ w15))))))))))))), ?_⟩⟩
  simp [List.append_assoc]

/-- C7: every frame the summarizer extracts arises from a region of the
input ending in the literal `at`, whitespace, a (newline-free) file
part, a colon and a line number; a frame line lacking this `at
file:line` suffix therefore never produces a frame and appears in
neither the user nor the library bucket. -/
theorem C7_extracted_frames_have_at_suffix (out : List Char) (f : RawFrame)
    (h : f ∈ framesOf out) :
    ∃ ws file digits, ws ≠ [] ∧ (∀ c ∈ ws, pySpace c = true) ∧
      file ≠ [] ∧ (∀ c ∈ file, notNl c = true) ∧
      digits ≠ [] ∧ (∀ c ∈ digits, pyDigit c = true) ∧
      ('a' :: 't' :: (ws ++ (file ++ ':' :: digits))) <:+: out := by
  obtain ⟨s0, caps, rest, hsuf, hrun, hf⟩ := scanGo_mem _ out f h
  obtain ⟨w, hw, hm⟩ := KM_single_inv (run_sound _ _ _ _ _ _ hrun)
  obtain ⟨ws, file, digits, h1, h2, h3, h4, h5, h6, hsfx⟩ := framePat_shape hm
  refine ⟨ws, file, digits, h1, h2, h3, h4, h5, h6, ?_⟩
  have hpre : w <+: s0 := ⟨rest, hw.symm⟩
  exact (hsfx.isInfix.trans hpre.isInfix).trans hsuf.isInfix

theorem C7_extracted_frames_have_at_suffix_witness :
    c7frame ∈ framesOf c7wit ∧
    (∃ ws file digits, ws ≠ [] ∧ (∀ c ∈ ws, pySpace c = true) ∧
      file ≠ [] ∧ (∀ c ∈ file, notNl c = true) ∧
      digits ≠ [] ∧ (∀ c ∈ digits, pyDigit c = true) ∧
      ('a' :: 't' :: (ws ++ (file ++ ':' :: digits))) <:+: c7wit) :=
  ⟨by decide, C7_extracted_frames_have_at_suffix c7wit c7frame (by decide)⟩

end HappyCrash
